import Mathlib

/-!
Shallow embedding of the `gps_history` utility scripts and verification of
their specified properties.

The embedded programs are:

* `tool/generate_google_json.py` — the synthetic location-history generator:
  per-index derivation rules (`accuracy_rule`, `vertical_accuracy_rule`,
  `time_rule` with its local `extra_delay`, `time_activity_rule`), the
  pattern rotation (`all_patterns`, `nr_patterns`), the record renderer, and
  the streaming document assembler (lead-in, record/separator writes,
  lead-out).
* `tool/gen_github_changes.py` — the changelog slicer (`run_conversion`).
* `tool/google_json_unique_keys.py` and `tools/google_json_unique_keys.py` —
  the two copies of the JSON key lister.

Python integers are embedded as `Nat` (all quantities involved are
non-negative; Python `//` on non-negative integers is `Nat` division, and
`round` on an integer is the identity).  The latitude / longitude / altitude
rules use floating-point trigonometry (`sin`, `cos`); no claim constrains
their values, so the rounded results are passed in as unconstrained integer
functions `latF lonF altF : Nat -> Int`.  The module-level configuration
constants `start_time`, `time_between_points_s` and `nr_points` are passed
as explicit parameters (their source defaults, 1379129160146, 60 and
1000000, appear in concrete instances).
-/

/-- Source `accuracy_rule(index)`: `20 * (index % 30)`. -/
def accuracy_rule (index : Nat) : Nat := 20 * (index % 30)

/-- Source `vertical_accuracy_rule(index)`: `accuracy_rule(index) // 10`. -/
def vertical_accuracy_rule (index : Nat) : Nat := accuracy_rule index / 10

/-- Source `time_activity_rule(index)`:
`time_between_points_s // (1 + (index % 3))`. -/
def time_activity_rule (time_between_points_s index : Nat) : Nat :=
  time_between_points_s / (1 + (index % 3))

/-- The local `extra_delay` computed inside source `time_rule`:
`0 if index % 50 != 0 else time_between_points_s * 100 * (index % 10)`. -/
def extra_delay (time_between_points_s index : Nat) : Nat :=
  if index % 50 ≠ 0 then 0 else time_between_points_s * 100 * (index % 10)

/-- Source `time_rule(index)`:
`index * 1000 * time_between_points_s + extra_delay`. -/
def time_rule (time_between_points_s index : Nat) : Nat :=
  index * 1000 * time_between_points_s + extra_delay time_between_points_s index

/-- The `time` value of the generator loop (source line
`time = round(start_time + time_rule(points_written))`; the argument is an
integer, so `round` is the identity). -/
def timestamp_ms (start_time time_between_points_s index : Nat) : Nat :=
  start_time + time_rule time_between_points_s index

/-- The three record templates of the source
(`pattern_accuracy_only`, `pattern_altitude`, `pattern_activity`),
identified by which placeholders they keep. -/
inductive Pattern where
  | accuracy_only
  | altitude
  | activity
deriving DecidableEq

/-- Source `all_patterns`: the fixed rotation
`[pattern_accuracy_only, pattern_accuracy_only, pattern_altitude,
pattern_accuracy_only, pattern_altitude, pattern_activity]`. -/
def all_patterns : List Pattern :=
  [Pattern.accuracy_only, Pattern.accuracy_only, Pattern.altitude,
   Pattern.accuracy_only, Pattern.altitude, Pattern.activity]

/-- Source `nr_patterns = len(all_patterns)`. -/
def nr_patterns : Nat := all_patterns.length

/-- The fixed, hardcoded activity list of `pattern_activity`:
four `(type, confidence)` entries. -/
def activity_entries : List (String × Nat) :=
  [("UNKNOWN", 56), ("STILL", 38), ("IN_VEHICLE", 5), ("TILTING", 1)]

/-- A rendered record: the values substituted into the selected template.
`plain` corresponds to `pattern_accuracy_only`, `withAltitude` to
`pattern_altitude` and `withActivity` to `pattern_activity` (whose extra
fields are the nested activity timestamp and the fixed activity list). -/
inductive RenderedRecord where
  | plain (time : Nat) (latitude longitude : Int) (accuracy : Nat)
  | withAltitude (time : Nat) (latitude longitude : Int) (accuracy : Nat)
      (altitude : Int) (vertical_accuracy : Nat)
  | withActivity (time : Nat) (latitude longitude : Int) (accuracy : Nat)
      (time_activity : Nat) (activities : List (String × Nat))
deriving DecidableEq

/-- The template class of a rendered record. -/
def shapeOf : RenderedRecord → Pattern
  | RenderedRecord.plain _ _ _ _ => Pattern.accuracy_only
  | RenderedRecord.withAltitude _ _ _ _ _ _ => Pattern.altitude
  | RenderedRecord.withActivity _ _ _ _ _ _ => Pattern.activity

/-- One iteration of the generator loop: substitute the computed values into
the selected pattern (`pattern.format(...)` keeps only the placeholders the
pattern mentions).  `time` and `time_activity` are the source lines 97–98;
`latF`, `lonF`, `altF` stand for the rounded floating-point
latitude/longitude/altitude rules. -/
def formatPattern (start_time time_between_points_s : Nat)
    (latF lonF altF : Nat → Int) (p : Pattern) (index : Nat) : RenderedRecord :=
  let time := timestamp_ms start_time time_between_points_s index
  let time_activity := time + time_activity_rule time_between_points_s index
  match p with
  | Pattern.accuracy_only =>
      RenderedRecord.plain time (latF index) (lonF index) (accuracy_rule index)
  | Pattern.altitude =>
      RenderedRecord.withAltitude time (latF index) (lonF index)
        (accuracy_rule index) (altF index) (vertical_accuracy_rule index)
  | Pattern.activity =>
      RenderedRecord.withActivity time (latF index) (lonF index)
        (accuracy_rule index) time_activity activity_entries

/-- Source line 94, `pattern = all_patterns[points_written % nr_patterns]`,
followed by the format call.  `index % nr_patterns < nr_patterns`, so the
`getD` default is never reached. -/
def renderRecord (start_time time_between_points_s : Nat)
    (latF lonF altF : Nat → Int) (index : Nat) : RenderedRecord :=
  formatPattern start_time time_between_points_s latF lonF altF
    (all_patterns.getD (index % nr_patterns) Pattern.accuracy_only) index

/-- One `file.write` call of the document assembler: the lead-in
`{"locations": [{`, a rendered record fragment, the separator `    }, {`, or
the lead-out `}]}`. -/
inductive WriteEvent where
  | leadIn
  | record (r : RenderedRecord)
  | separator
  | leadOut
deriving DecidableEq

/-- The `while points_written < nr_points` loop of the assembler: write the
rendered record, increment, and write the separator when
`points_written <= nr_points` (the source's post-increment test). -/
def loopWrites (start_time time_between_points_s : Nat)
    (latF lonF altF : Nat → Int) (nr_points points_written : Nat) :
    List WriteEvent :=
  if points_written < nr_points then
    WriteEvent.record
        (renderRecord start_time time_between_points_s latF lonF altF
          points_written) ::
      ((if points_written + 1 ≤ nr_points then [WriteEvent.separator] else []) ++
        loopWrites start_time time_between_points_s latF lonF altF nr_points
          (points_written + 1))
  else []
termination_by nr_points - points_written

/-- The whole assembler: lead-in, the loop's writes starting from
`points_written = 0`, lead-out. -/
def generatorWrites (start_time time_between_points_s : Nat)
    (latF lonF altF : Nat → Int) (nr_points : Nat) : List WriteEvent :=
  WriteEvent.leadIn ::
    (loopWrites start_time time_between_points_s latF lonF altF nr_points 0 ++
      [WriteEvent.leadOut])

/-!
Embedding of `tool/gen_github_changes.py`.  Python strings are embedded as
`List Char`; `line.startswith(p)` is `p.isPrefixOf line`.  The loop body is
`run_conversion`'s `for line in src:` loop; the flag `do_output` starts out
unassigned, modelled as `Option Bool` starting at `none`, and reading it
while still `none` is Python's `NameError`, modelled as result `none`
(the error can only occur at the very first line, before anything has been
written, so no partial output is lost in the model).
-/

/-- The prefix `'# '` tested by both `startswith` calls of the slicer. -/
def header_marker : List Char := ['#', ' ']

/-- The `for line in src:` loop of source `run_conversion`: update
`do_output` per the two `startswith` tests, then write the line when
`do_output` is true; reading an unassigned `do_output` is an error. -/
def convLines (version : List Char) :
    Option Bool → List (List Char) → Option (List (List Char))
  | _, [] => some []
  | do_output, line :: rest =>
    let updated : Option Bool :=
      if (header_marker ++ version).isPrefixOf line then some true
      else if header_marker.isPrefixOf line then some false
      else do_output
    match updated with
    | none => none
    | some b =>
      match convLines version (some b) rest with
      | none => none
      | some out => some (if b then line :: out else out)

/-- Source `run_conversion`, restricted to its line-processing behaviour:
given the version label and the source file's lines, produce the lines
written to the target file, or `none` for the unbound-`do_output` error. -/
def run_conversion (version : List Char) (src : List (List Char)) :
    Option (List (List Char)) :=
  convLines version none src

/-- Total restatement of the slicer loop once `do_output` has a value
(after the first line, the flag can never be unassigned again). -/
def convSome (version : List Char) (do_output : Bool) :
    List (List Char) → List (List Char)
  | [] => []
  | line :: rest =>
    let b : Bool :=
      if (header_marker ++ version).isPrefixOf line then true
      else if header_marker.isPrefixOf line then false
      else do_output
    if b then line :: convSome version b rest else convSome version b rest

/-- A changelog decomposed into sections: each section is a header line
followed by its body lines. -/
def joinSecs (secs : List (List Char × List (List Char))) :
    List (List Char) :=
  (secs.map (fun s => s.1 :: s.2)).flatten

/-- Whether a section's header line begins with `'# ' + version`. -/
def matchesVersion (version : List Char)
    (s : List Char × List (List Char)) : Bool :=
  (header_marker ++ version).isPrefixOf s.1

/-- Well-formed section list: every header line begins with `'# '` and no
body line does. -/
def wellFormedSecs (secs : List (List Char × List (List Char))) : Prop :=
  ∀ s ∈ secs, header_marker.isPrefixOf s.1 = true ∧
    ∀ l ∈ s.2, header_marker.isPrefixOf l = false

instance (secs : List (List Char × List (List Char))) :
    Decidable (wellFormedSecs secs) := by
  unfold wellFormedSecs; infer_instance

/-!
Embedding of the two copies of the JSON key lister,
`tool/google_json_unique_keys.py` and `tools/google_json_unique_keys.py`.
Both compile the regex `\w+`, collect `m[0]` (the first maximal run of word
characters) of every line that has one into a set, and print each distinct
token as `'{} : {}'.format(name, len(name))` in sorted order.  The word
character class and the string sort order are shared by the two copies, so
the equivalence below holds for any rendering of them; they are embedded
once (`wordChar`, `lexLt`) and used by both.
-/

/-- The regex character class `\w` (word character). -/
def wordChar (c : Char) : Bool := c.isAlphanum || c = '_'

/-- `re.findall('\w+', line)[0]` when the match list is non-empty: the first
maximal run of word characters of the line, if any. -/
def firstWord : List Char → Option (List Char)
  | [] => none
  | c :: rest =>
    if wordChar c then some (c :: rest.takeWhile wordChar)
    else firstWord rest

/-- Lexicographic (code-point) strict order on strings, as used by Python's
`sorted`. -/
def lexLt : List Char → List Char → Bool
  | [], [] => false
  | [], _ :: _ => true
  | _ :: _, [] => false
  | a :: as, b :: bs => if a < b then true else if b < a then false else lexLt as bs

/-- Insert into a sorted list (ascending by `lexLt`). -/
def insertLex (x : List Char) : List (List Char) → List (List Char)
  | [] => [x]
  | y :: ys => if lexLt y x then y :: insertLex x ys else x :: y :: ys

/-- `sorted(...)` over distinct strings. -/
def sortLex (l : List (List Char)) : List (List Char) :=
  l.foldr insertLex []

/-- The printed line `'{} : {}'.format(name, len(name))`. -/
def formatName (name : List Char) : List Char :=
  name ++ (' ' :: ':' :: ' ' :: (Nat.repr name.length).data)

/-- The `tool/google_json_unique_keys.py` pipeline: collect the set
`unique_names` of first word-tokens of the input lines, then print each in
sorted order with its length. -/
def unique_keys_tool (lines : List (List Char)) : List (List Char) :=
  let unique_names := (lines.filterMap firstWord).dedup
  (sortLex unique_names).map formatName

/-- The `tools/google_json_unique_keys.py` pipeline (the second copy of the
script, identical up to semicolons and an inlined filename literal). -/
def unique_keys_tools (lines : List (List Char)) : List (List Char) :=
  let unique_names := (lines.filterMap firstWord).dedup
  (sortLex unique_names).map formatName

/-! Helper lemmas. -/

/-- `index % 50 == 0` forces `index % 10 == 0`, so the extra delay inside
`time_rule` is zero at every index. -/
theorem extra_delay_eq_zero (time_between_points_s index : Nat) :
    extra_delay time_between_points_s index = 0 := by
  unfold extra_delay
  split
  · rfl
  · rename_i h
    have h10 : index % 10 = 0 := by omega
    simp [h10]

/-! Claim theorems. -/

/-- C1 (code evaluated at the failing input `record_count = 1`): the
assembler writes the `}, {` separator after the last (here: only) record as
well, because the post-increment test `points_written <= nr_points` is
always true, so the write sequence ends `..., separator, lead-out` instead
of `..., lead-out`; parsed as JSON this yields a spurious trailing empty
object, i.e. `record_count + 1` array elements. -/
theorem C1_separator_after_last_record (start_time time_between_points_s : Nat)
    (latF lonF altF : Nat → Int) :
    generatorWrites start_time time_between_points_s latF lonF altF 1 =
      [WriteEvent.leadIn,
       WriteEvent.record
         (renderRecord start_time time_between_points_s latF lonF altF 0),
       WriteEvent.separator,
       WriteEvent.leadOut] := by
  simp [generatorWrites, loopWrites]

/-- C2 (code evaluated at the failing input `record_count = 0`): the
generator performs no validation of the record count; with `nr_points = 0`
it still writes the lead-in and the lead-out (producing
`{"locations": [{\n    }]}`, an array with one spurious empty element)
instead of rejecting the configuration before any writing begins. -/
theorem C2_no_rejection_of_zero_count (start_time time_between_points_s : Nat)
    (latF lonF altF : Nat → Int) :
    generatorWrites start_time time_between_points_s latF lonF altF 0 =
      [WriteEvent.leadIn, WriteEvent.leadOut] := by
  simp [generatorWrites, loopWrites]

/-- C3 counterexample: the claim offers `i = 50` as an index with
`i mod 50 == 0` and `i mod 10 != 0`, but `50 mod 10 = 0`, so the side
condition fails at the claim's own example (and the extra delay there is
`0`, not a forward jump). -/
theorem C3_counterexample :
    (50 % 50 = 0 ∧ ¬(50 % 10 ≠ 0)) ∧ extra_delay 60 50 = 0 := by decide

/-- C3 amended: for every `i`, `extra_delay(i)` is `0` when
`i mod 50 != 0` and `interval_seconds * 100 * (i mod 10)` when
`i mod 50 == 0`, and `timestamp_ms(i) = start_ms + i * 1000 *
interval_seconds + extra_delay(i)`; however `i mod 50 == 0` forces
`i mod 10 == 0`, so no index satisfies the claim's side condition
`i mod 50 == 0 && i mod 10 != 0` (in particular `i = 50` does not). -/
theorem C3_extra_delay_formula
    (time_between_points_s start_time index : Nat) :
    extra_delay time_between_points_s index =
        (if index % 50 = 0 then time_between_points_s * 100 * (index % 10)
         else 0) ∧
      timestamp_ms start_time time_between_points_s index =
        start_time + index * 1000 * time_between_points_s +
          extra_delay time_between_points_s index ∧
      (index % 50 = 0 → index % 10 = 0) := by
  refine ⟨?_, ?_, fun h => by omega⟩
  · unfold extra_delay
    by_cases h : index % 50 = 0 <;> simp [h]
  · unfold timestamp_ms time_rule
    ring

/-- C4: the extra delay inside `time_rule` is zero at every index (because
`i mod 50 == 0` implies `i mod 10 == 0`), so every record timestamp is
exactly linear, `timestamp_ms(i) = start_time + 1000 *
time_between_points_s * i`, and timestamps are strictly increasing whenever
`time_between_points_s > 0`. -/
theorem C4_timestamps_linear_no_jumps
    (time_between_points_s start_time i j : Nat)
    (ht : 0 < time_between_points_s) (hij : i < j) :
    extra_delay time_between_points_s i = 0 ∧
      timestamp_ms start_time time_between_points_s i =
        start_time + 1000 * time_between_points_s * i ∧
      timestamp_ms start_time time_between_points_s i <
        timestamp_ms start_time time_between_points_s j := by
  refine ⟨extra_delay_eq_zero _ _, ?_, ?_⟩
  · rw [timestamp_ms, time_rule, extra_delay_eq_zero]
    ring
  · rw [timestamp_ms, timestamp_ms, time_rule, time_rule,
      extra_delay_eq_zero, extra_delay_eq_zero]
    have hmul : 1000 * time_between_points_s * i <
        1000 * time_between_points_s * j :=
      mul_lt_mul_of_pos_left hij (by positivity)
    have h1 : i * 1000 * time_between_points_s =
        1000 * time_between_points_s * i := by ring
    have h2 : j * 1000 * time_between_points_s =
        1000 * time_between_points_s * j := by ring
    rw [h1, h2]
    omega

/-- C4 witness at `time_between_points_s = 60`, `start_time =
1379129160146`, `i = 0`, `j = 1`. -/
theorem C4_timestamps_linear_no_jumps_witness :
    extra_delay 60 0 = 0 ∧
      timestamp_ms 1379129160146 60 0 = 1379129160146 + 1000 * 60 * 0 ∧
      timestamp_ms 1379129160146 60 0 < timestamp_ms 1379129160146 60 1 :=
  C4_timestamps_linear_no_jumps 60 1379129160146 0 1 (by decide) (by decide)

/-- C5: the record shape selected for index `i` is `patterns[i mod 6]`
where `patterns` is the fixed 6-entry rotation
plain, plain, altitude, plain, altitude, activity. -/
theorem C5_pattern_rotation (start_time time_between_points_s : Nat)
    (latF lonF altF : Nat → Int) (i : Nat) :
    shapeOf (renderRecord start_time time_between_points_s latF lonF altF i) =
      [Pattern.accuracy_only, Pattern.accuracy_only, Pattern.altitude,
        Pattern.accuracy_only, Pattern.altitude, Pattern.activity].getD
        (i % 6) Pattern.accuracy_only := by
  have h6 : i % 6 = 0 ∨ i % 6 = 1 ∨ i % 6 = 2 ∨ i % 6 = 3 ∨ i % 6 = 4 ∨
      i % 6 = 5 := by omega
  rcases h6 with h | h | h | h | h | h <;>
    simp [renderRecord, nr_patterns, all_patterns, formatPattern, shapeOf, h]

/-- C6: every record rendered with the activity shape carries a nested
activity timestamp equal to `timestamp_ms(i) + interval_seconds // (1 + (i
mod 3))` and the fixed hardcoded list of four activity entries UNKNOWN/56,
STILL/38, IN_VEHICLE/5, TILTING/1, in that order. -/
theorem C6_activity_record_contents (start_time time_between_points_s : Nat)
    (latF lonF altF : Nat → Int) (i : Nat)
    (h : shapeOf
        (renderRecord start_time time_between_points_s latF lonF altF i) =
      Pattern.activity) :
    renderRecord start_time time_between_points_s latF lonF altF i =
      RenderedRecord.withActivity
        (timestamp_ms start_time time_between_points_s i) (latF i) (lonF i)
        (accuracy_rule i)
        (timestamp_ms start_time time_between_points_s i +
          time_between_points_s / (1 + (i % 3)))
        [("UNKNOWN", 56), ("STILL", 38), ("IN_VEHICLE", 5), ("TILTING", 1)] := by
  have h6 : i % 6 = 0 ∨ i % 6 = 1 ∨ i % 6 = 2 ∨ i % 6 = 3 ∨ i % 6 = 4 ∨
      i % 6 = 5 := by omega
  rcases h6 with h' | h' | h' | h' | h' | h' <;>
    simp [renderRecord, nr_patterns, all_patterns, formatPattern, shapeOf, h',
      time_activity_rule, activity_entries] at h ⊢

/-- C6 witness at index 5 (the first activity slot of the rotation), with
the source configuration constants and zero coordinate functions. -/
theorem C6_activity_record_contents_witness :
    shapeOf (renderRecord 1379129160146 60 (fun _ => 0) (fun _ => 0)
        (fun _ => 0) 5) = Pattern.activity ∧
      renderRecord 1379129160146 60 (fun _ => 0) (fun _ => 0) (fun _ => 0) 5 =
        RenderedRecord.withActivity (timestamp_ms 1379129160146 60 5) 0 0
          (accuracy_rule 5) (timestamp_ms 1379129160146 60 5 + 60 / (1 + (5 % 3)))
          [("UNKNOWN", 56), ("STILL", 38), ("IN_VEHICLE", 5), ("TILTING", 1)] :=
  ⟨by decide,
   C6_activity_record_contents 1379129160146 60 (fun _ => 0) (fun _ => 0)
     (fun _ => 0) 5 (by decide)⟩

/-- C9: `accuracy(i)` equals `20 * (i mod 30)`, lies in `[0, 580]`, and
`vertical_accuracy(i)` equals `accuracy(i) // 10` exactly. -/
theorem C9_accuracy_bounds (i : Nat) :
    accuracy_rule i = 20 * (i % 30) ∧ accuracy_rule i ≤ 580 ∧
      vertical_accuracy_rule i = accuracy_rule i / 10 := by
  refine ⟨rfl, ?_, rfl⟩
  unfold accuracy_rule
  have h : i % 30 < 30 := Nat.mod_lt _ (by omega)
  omega

/-- C10: the two copies of the JSON key lister are behaviourally
equivalent — on every input they produce the same printed lines in the
same alphabetical order. -/
theorem C10_key_listers_equivalent (lines : List (List Char)) :
    unique_keys_tool lines = unique_keys_tools lines := rfl

/-! Helper lemmas for the changelog slicer. -/

/-- A line beginning with `'# ' + version` in particular begins with
`'# '`. -/
theorem prefix_weaken (a b l : List Char)
    (h : (a ++ b).isPrefixOf l = true) : a.isPrefixOf l = true := by
  rw [List.isPrefixOf_iff_prefix] at *
  exact List.IsPrefix.trans (List.prefix_append a b) h

/-- Once `do_output` has been assigned, the slicer loop can no longer fail,
and computes `convSome`. -/
theorem convLines_eq_convSome (version : List Char) :
    ∀ (l : List (List Char)) (b : Bool),
      convLines version (some b) l = some (convSome version b l) := by
  intro l
  induction l with
  | nil => intro b; rfl
  | cons line rest ih =>
    intro b
    by_cases h1 : (header_marker ++ version).isPrefixOf line <;>
      by_cases h2 : header_marker.isPrefixOf line <;>
        simp [convLines, convSome, h1, h2, ih]

/-- Lines that are not headers neither change the flag nor end a section:
they are copied exactly when the flag is set. -/
theorem convSome_append_body (version : List Char) :
    ∀ (body : List (List Char)) (b : Bool) (rest : List (List Char)),
      (∀ l ∈ body, header_marker.isPrefixOf l = false) →
      convSome version b (body ++ rest) =
        (if b then body else []) ++ convSome version b rest := by
  intro body
  induction body with
  | nil => intro b rest _; simp
  | cons line tail ih =>
    intro b rest h
    have hline : header_marker.isPrefixOf line = false :=
      h line (List.mem_cons_self _ _)
    have hv : (header_marker ++ version).isPrefixOf line = false := by
      cases hvp : (header_marker ++ version).isPrefixOf line
      · rfl
      · exact absurd (prefix_weaken _ _ _ hvp) (by simp [hline])
    have htail : ∀ l ∈ tail, header_marker.isPrefixOf l = false :=
      fun l hl => h l (List.mem_cons_of_mem _ hl)
    by_cases hb : b <;>
      simp [convSome, hv, hline, hb, ih _ rest htail]

/-- The slicer over a well-formed section list keeps exactly the sections
whose header matches the version, regardless of the incoming flag. -/
theorem convSome_joinSecs (version : List Char) :
    ∀ (secs : List (List Char × List (List Char))) (b : Bool),
      wellFormedSecs secs →
      convSome version b (joinSecs secs) =
        joinSecs (secs.filter (matchesVersion version)) := by
  intro secs
  induction secs with
  | nil => intro b _; rfl
  | cons s rest ih =>
    obtain ⟨hdr, body⟩ := s
    intro b h
    have hs := h (hdr, body) (List.mem_cons_self _ _)
    have hrest : wellFormedSecs rest := fun s hs' => h s (List.mem_cons_of_mem _ hs')
    have hjoin : joinSecs ((hdr, body) :: rest) = hdr :: (body ++ joinSecs rest) := by
      simp [joinSecs]
    cases hm : (header_marker ++ version).isPrefixOf hdr
    · rw [hjoin]
      have hstep : convSome version b (hdr :: (body ++ joinSecs rest)) =
          convSome version false (body ++ joinSecs rest) := by
        simp [convSome, hm, hs.1]
      rw [hstep, convSome_append_body version body false (joinSecs rest) hs.2,
        ih false hrest]
      simp [matchesVersion, hm]
    · rw [hjoin]
      have hstep : convSome version b (hdr :: (body ++ joinSecs rest)) =
          hdr :: convSome version true (body ++ joinSecs rest) := by
        simp [convSome, hm, hs.1]
      rw [hstep, convSome_append_body version body true (joinSecs rest) hs.2,
        ih true hrest]
      simp [matchesVersion, hm, joinSecs]

/-- C7 counterexample: on the input file consisting of the single line
`hello` (which does not start with `'# '`), the slicer fails with the
unbound-`do_output` error instead of copying the (empty) set of lines
falling under a matching section header. -/
theorem C7_counterexample :
    run_conversion ("1.0".data) [("hello".data)] = none := by decide

/-- C7 amended: for every input that is a well-formed sequence of sections
(each a header line beginning with `'# '` followed by body lines not
beginning with `'# '` — equivalently, any input whose first line is a
header), the slicer copies exactly the sections whose header begins with
`'# ' + version`, headers included, in order, and no other lines; on
inputs that start with a non-header line it instead fails with an
unbound-variable error (see the counterexample). -/
theorem C7_slicer_copies_matching_sections (version : List Char)
    (secs : List (List Char × List (List Char)))
    (h : wellFormedSecs secs) :
    run_conversion version (joinSecs secs) =
      some (joinSecs (secs.filter (matchesVersion version))) := by
  cases secs with
  | nil => rfl
  | cons s rest =>
    obtain ⟨hdr, body⟩ := s
    have hs := h (hdr, body) (List.mem_cons_self _ _)
    have hjoin : joinSecs ((hdr, body) :: rest) = hdr :: (body ++ joinSecs rest) := by
      simp [joinSecs]
    rw [hjoin]
    cases hm : (header_marker ++ version).isPrefixOf hdr
    · have hstep : run_conversion version (hdr :: (body ++ joinSecs rest)) =
          convLines version (some false) (body ++ joinSecs rest) := by
        simp [run_conversion, convLines, hm, hs.1]
        cases convLines version (some false) (body ++ joinSecs rest) <;> simp
      rw [hstep, convLines_eq_convSome,
        convSome_append_body version body false (joinSecs rest) hs.2,
        convSome_joinSecs version rest false
          (fun s hs' => h s (List.mem_cons_of_mem _ hs'))]
      simp [matchesVersion, hm]
    · have hstep : run_conversion version (hdr :: (body ++ joinSecs rest)) =
          (convLines version (some true) (body ++ joinSecs rest)).map
            (fun out => hdr :: out) := by
        simp [run_conversion, convLines, hm, hs.1]
        cases convLines version (some true) (body ++ joinSecs rest) <;> simp
      rw [hstep, convLines_eq_convSome,
        convSome_append_body version body true (joinSecs rest) hs.2,
        convSome_joinSecs version rest true
          (fun s hs' => h s (List.mem_cons_of_mem _ hs'))]
      simp [matchesVersion, hm, joinSecs]

/-- C7 witness: a two-section changelog for versions 1.0 and 2.0; slicing
for `1.0` returns exactly the first section, header included. -/
theorem C7_slicer_copies_matching_sections_witness :
    run_conversion ("1.0".data)
        (joinSecs [("# 1.0".data, ["alpha".data]),
          ("# 2.0".data, ["beta".data])]) =
      some (joinSecs
        ([("# 1.0".data, ["alpha".data]),
          ("# 2.0".data, ["beta".data])].filter (matchesVersion ("1.0".data)))) :=
  C7_slicer_copies_matching_sections ("1.0".data)
    [("# 1.0".data, ["alpha".data]), ("# 2.0".data, ["beta".data])]
    (by decide)

/-- C8: whenever the first line of a non-empty input does not begin with
`'# '`, the loop reads `do_output` before any assignment, so the run fails
with an unbound-variable error (`none`) instead of producing output. -/
theorem C8_unassigned_flag_error (version line : List Char)
    (rest : List (List Char))
    (h : header_marker.isPrefixOf line = false) :
    run_conversion version (line :: rest) = none := by
  have hv : (header_marker ++ version).isPrefixOf line = false := by
    cases hvp : (header_marker ++ version).isPrefixOf line
    · rfl
    · exact absurd (prefix_weaken _ _ _ hvp) (by simp [h])
  simp [run_conversion, convLines, hv, h]

/-- C8 witness: slicing for version 2.0 a file whose first line is the
non-header `intro` fails even though a matching header follows. -/
theorem C8_unassigned_flag_error_witness :
    header_marker.isPrefixOf ("intro".data) = false ∧
      run_conversion ("2.0".data) ["intro".data, "# 2.0".data] = none :=
  ⟨by decide,
   C8_unassigned_flag_error ("2.0".data) ("intro".data) ["# 2.0".data]
     (by decide)⟩

/-- C3 amended claim instantiated at the source configuration and the
claim's own example index 50. -/
theorem C3_extra_delay_formula_witness :
    extra_delay 60 50 = (if 50 % 50 = 0 then 60 * 100 * (50 % 10) else 0) ∧
      timestamp_ms 1379129160146 60 50 =
        1379129160146 + 50 * 1000 * 60 + extra_delay 60 50 ∧
      (50 % 50 = 0 → 50 % 10 = 0) :=
  C3_extra_delay_formula 60 1379129160146 50
